import Mathlib

/-!
Shallow embedding of the core aggregation pipeline of `src/app.py`
(Open-Access Paper Finder): record deduplication, OpenAlex abstract
reconstruction, keyword tokenization/analytics, the per-item payload
normalization of the PubMed and arXiv clients, and the search execution
block that fans a query out to the three source clients.

Python strings are modelled as Lean `String`s manipulated through their
`.data` character lists; Python `None`-able values as `Option`;
Python exceptions as `Except String`.
-/

namespace OAPF

/-- Characters stripped by Python `str.strip()` with no argument
(ASCII whitespace; the Unicode extras are irrelevant for the DOI/URL
inputs this program strips). -/
def isPySpace (c : Char) : Bool :=
  c == ' ' || c == Char.ofNat 9 || c == Char.ofNat 10 || c == Char.ofNat 13 ||
    c == Char.ofNat 11 || c == Char.ofNat 12

/-- Drop characters satisfying `p` from both ends of a character list,
as Python `str.strip` does. -/
def stripList (p : Char → Bool) (l : List Char) : List Char :=
  ((l.dropWhile p).reverse.dropWhile p).reverse

/-- Python `s.strip()` (no argument: whitespace). -/
def pyStrip (s : String) : String :=
  String.mk (stripList isPySpace s.data)

/-- Python `s.lower()` (the inputs lowered by this program are ASCII). -/
def lowerStr (s : String) : String :=
  String.mk (s.data.map Char.toLower)

/-- The unified record schema produced by every source client
(`title`, `authors`, `year`, `venue`, `doi`, `url_pdf`, `url_landing`,
`source` plus the internal `_abstract`). Fields that Python may set to
`None` are `Option`s. -/
structure Record where
  title : Option String := none
  authors : String := ""
  year : Option Int := none
  venue : Option String := none
  doi : Option String := none
  url_pdf : Option String := none
  url_landing : Option String := none
  source : String := ""
  abstract : Option String := none
deriving DecidableEq

/-- `(r.get("doi") or "").lower().strip()` in `dedupe_records`. -/
def dedupDoi (r : Record) : String :=
  pyStrip (lowerStr (r.doi.getD ""))

/-- `(r.get("url_pdf") or "").strip()` in `dedupe_records`. -/
def dedupPdf (r : Record) : String :=
  pyStrip (r.url_pdf.getD "")

/-- `(r.get("url_landing") or "").strip()` in `dedupe_records`. -/
def dedupLand (r : Record) : String :=
  pyStrip (r.url_landing.getD "")

/-- The loop body of `dedupe_records` (src/app.py lines 409-429), with the
three seen-sets carried explicitly.  The three `continue` guards become
nested conditionals; kept records add each of their non-empty keys to the
corresponding set. -/
def dedupeAux (sd sp sl : List String) : List Record → List Record
  | [] => []
  | r :: rs =>
    let doi := dedupDoi r
    let pdf := dedupPdf r
    let land := dedupLand r
    if doi ≠ "" ∧ doi ∈ sd then dedupeAux sd sp sl rs
    else if pdf ≠ "" ∧ pdf ∈ sp then dedupeAux sd sp sl rs
    else if land ≠ "" ∧ land ∈ sl then dedupeAux sd sp sl rs
    else
      r :: dedupeAux (if doi ≠ "" then doi :: sd else sd)
        (if pdf ≠ "" then pdf :: sp else sp)
        (if land ≠ "" then land :: sl else sl) rs

/-- `dedupe_records` from src/app.py: single forward scan starting from
three empty seen-sets. -/
def dedupe_records (rows : List Record) : List Record :=
  dedupeAux [] [] [] rows

/-- One step of deduplication as worded by the spec (§4.4), on a state of
kept records and three seen-key sets: a record is discarded iff its
non-empty DOI (lowercased, trimmed) is already in the DOI set, OR its
non-empty PDF URL (trimmed) is already in the PDF set, OR its non-empty
landing URL (trimmed) is already in the landing set; otherwise it is
appended to the kept list and each of its non-empty keys is added to the
corresponding set. -/
def dedupeSpecStep
    (st : List Record × List String × List String × List String)
    (r : Record) : List Record × List String × List String × List String :=
  let doi := dedupDoi r
  let pdf := dedupPdf r
  let land := dedupLand r
  if (doi ≠ "" ∧ doi ∈ st.2.1) ∨ (pdf ≠ "" ∧ pdf ∈ st.2.2.1) ∨
      (land ≠ "" ∧ land ∈ st.2.2.2) then st
  else
    (st.1 ++ [r], (if doi ≠ "" then doi :: st.2.1 else st.2.1),
      (if pdf ≠ "" then pdf :: st.2.2.1 else st.2.2.1),
      (if land ≠ "" then land :: st.2.2.2 else st.2.2.2))

/-- Deduplication as worded by the spec (§4.4): a single forward fold of
`dedupeSpecStep` starting from no kept records and three empty sets. -/
def dedupeSpec (rows : List Record) : List Record :=
  (rows.foldl dedupeSpecStep
    (([] : List Record), ([] : List String), ([] : List String),
      ([] : List String))).1

/-- `abstract_from_openalex` from src/app.py (lines 88-103): rebuild the
abstract text from the inverted index.  The Python dict is modelled as an
association list in insertion order; `None` as `none`; the guard
`if not inv_idx` covers both `None` and the empty dict. -/
def abstract_from_openalex (inv_idx : Option (List (String × List Nat))) :
    String :=
  match inv_idx with
  | none => ""
  | some idx =>
    if idx = [] then ""
    else
      let maxpos := idx.foldl
        (fun m pr => if pr.2 ≠ [] then max m (pr.2.foldl max 0) else m) 0
      let out := List.replicate (maxpos + 1) ""
      let out := idx.foldl
        (fun o pr => pr.2.foldl
          (fun o p => if p < o.length then o.set p pr.1 else o) o) out
      String.intercalate " " (out.filter (fun t => t ≠ ""))

/-- Abstract reconstruction as worded by the spec (§4.3): allocate a
sequence of empty slots sized to (max position + 1) across all tokens,
place each token string at every one of its listed positions, then join
all non-empty slots in order with single spaces; an empty or absent input
yields an empty string. -/
def abstractSpec (inv_idx : Option (List (String × List Nat))) : String :=
  match inv_idx with
  | none => ""
  | some idx =>
    if idx = [] then ""
    else
      let maxpos := ((idx.map Prod.snd).flatten).foldl max 0
      let out := List.replicate (maxpos + 1) ""
      let out := idx.foldl
        (fun o pr => pr.2.foldl (fun o p => o.set p pr.1) o) out
      String.intercalate " " (out.filter (fun t => t ≠ ""))

/-- The stopword set of src/app.py line 75-77, as the word list of the
triple-quoted literal (`set(...)` membership equals list membership). -/
def STOPWORDS : List String :=
  ["a", "an", "and", "are", "as", "at", "be", "but", "by", "for", "from",
   "in", "into", "is", "it", "its", "of", "on", "or", "s", "the", "to",
   "with", "we", "our", "this", "that", "these", "those", "over", "under",
   "using", "used", "via", "new", "study", "review", "approach", "method",
   "results", "conclusion", "conclusions", "based", "between", "among",
   "toward", "towards", "among", "within", "across", "without", "has",
   "have", "had", "were", "was", "being", "been", "into", "about",
   "against", "among", "each", "other", "more", "most", "many", "much",
   "further", "less", "least", "than", "then", "there", "their", "they",
   "them", "he", "she", "you", "your", "i", "we", "us", "such", "while",
   "during", "before", "after", "according", "however", "therefore",
   "whereas", "whereas", "overall", "background", "objective",
   "objectives", "materials", "methods", "discussion", "discussions",
   "result", "results", "conclusion", "conclusions", "paper", "article",
   "preprint", "open", "access", "data", "code", "model", "models",
   "figure", "figures", "table", "tables", "supplementary",
   "supplementarymaterial", "materials", "available", "online", "link",
   "links"]

/-- `TOKEN_RE.findall` for `TOKEN_RE = [A-Za-z][A-Za-z\-]{2,}`: scan left
to right; at a letter, greedily take the following maximal run of letters
and hyphens; a match needs that run to have length at least 2 (total
token length at least 3); on failure or non-letter, advance one
character.  Fuel-structured (fuel bounds the number of scan steps by the
input length) so that concrete inputs evaluate by `decide`. -/
def pyFindallAux : Nat → List Char → List String
  | 0, _ => []
  | _ + 1, [] => []
  | fuel + 1, c :: rest =>
    if c.isAlpha then
      let run := rest.takeWhile (fun d => d.isAlpha || d == '-')
      if 2 ≤ run.length then
        String.mk (c :: run) :: pyFindallAux fuel (rest.drop run.length)
      else pyFindallAux fuel rest
    else pyFindallAux fuel rest

/-- All regex matches of `TOKEN_RE` in a character list. -/
def pyFindall (l : List Char) : List String :=
  pyFindallAux l.length l

/-- Python `w.strip("-'")`: drop leading and trailing hyphens and
apostrophes. -/
def stripHyApos (w : String) : String :=
  String.mk (stripList (fun c => c == '-' || c == Char.ofNat 39) w.data)

/-- `normalize_text` from src/app.py (lines 82-85): regex matches,
lowercased, stripped of boundary hyphens/apostrophes, with empty results
and stopwords discarded. -/
def normalize_text (text : String) : List String :=
  let words := (pyFindall text.data).map lowerStr
  let words := words.map stripHyApos
  words.filter (fun w => w ≠ "" && !(STOPWORDS.contains w))

/-- Lexicographic comparison of character lists by code point, the order
Python `sorted` uses on strings. -/
def lexLe : List Char → List Char → Bool
  | [], _ => true
  | _ :: _, [] => false
  | a :: as, b :: bs =>
    if a.toNat < b.toNat then true
    else if b.toNat < a.toNat then false
    else lexLe as bs

/-- Python string `<=` (lexicographic by code point). -/
def strLe (a b : String) : Bool :=
  lexLe a.data b.data

/-- The tokens one record contributes in `extract_keywords`: its title
and, when `include_abstracts` and the record has a non-empty `_abstract`,
that abstract. -/
def recordTokens (r : Record) (include_abstracts : Bool) : List String :=
  normalize_text (r.title.getD "") ++
    (if include_abstracts && (r.abstract.getD "" != "") then
      normalize_text (r.abstract.getD "")
    else [])

/-- The full token stream `extract_keywords` builds over a record list. -/
def tokensOf (rows : List Record) (include_abstracts : Bool) : List String :=
  rows.flatMap (fun r => recordTokens r include_abstracts)

/-- `extract_keywords` from src/app.py (lines 443-455).  The `Counter` is
modelled as its counting function; `uncommon` lists the distinct words of
frequency exactly 1 and length at least 6, sorted lexicographically. -/
def extract_keywords (rows : List Record) (include_abstracts : Bool) :
    (String → Nat) × List String :=
  let tokens := tokensOf rows include_abstracts
  (fun w => tokens.count w,
    ((tokens.dedup).filter
      (fun w => tokens.count w == 1 && decide (6 ≤ w.length))).mergeSort strLe)

/-- One entry of a PubMed ESummary `articleids` list: a type tag and a
value (absent when the payload lacks the `value` key). -/
structure ArticleId where
  idtype : String := ""
  value : Option String := none
deriving DecidableEq

/-- One PubMed ESummary result item, restricted to the fields
`search_pubmed` reads. -/
structure PubmedItem where
  title : Option String := none
  articleids : List ArticleId := []
  authors : List (Option String) := []
  pubdate : String := ""
  fulljournalname : Option String := none
  source : Option String := none
deriving DecidableEq

/-- Python truthiness of an optional string: `None` and `""` are falsy. -/
def pyTruthy (o : Option String) : Bool :=
  o.getD "" != ""

/-- The identifier scan of `search_pubmed` (src/app.py lines 339-345):
`pmcid` starts as `None`, `doi` as `""`, and each `articleids` entry of
type `pmcid` / `doi` overwrites the running value (so the last entry of
each type wins, and a missing `value` key overwrites with `None`). -/
def pubmedIds (aids : List ArticleId) : Option String × Option String :=
  aids.foldl (fun acc aid =>
    ((if aid.idtype == "pmcid" then aid.value else acc.1),
      (if aid.idtype == "doi" then aid.value else acc.2)))
    ((none : Option String), (some "" : Option String))

/-- `", ".join([a.get('name') for a in item.get("authors", []) if a.get("name")])`:
truthy names only, so this join never sees `None`. -/
def joinNamesPubmed (ns : List (Option String)) : String :=
  String.intercalate ", " ((ns.filter pyTruthy).map (fun n => n.getD ""))

/-- Python `a or b` on an optional string against a string default. -/
def orStr (a : Option String) (b : String) : String :=
  if pyTruthy a then a.getD "" else b

/-- Python `str.split()` (split on whitespace runs, no empties),
fuel-structured for kernel evaluation. -/
def pyWordsAux : Nat → List Char → List String
  | 0, _ => []
  | _ + 1, [] => []
  | fuel + 1, c :: rest =>
    if isPySpace c then pyWordsAux fuel rest
    else
      let run := rest.takeWhile (fun d => !isPySpace d)
      String.mk (c :: run) :: pyWordsAux fuel (rest.drop run.length)

/-- Python `str(s).split()`. -/
def pyWords (s : String) : List String :=
  pyWordsAux s.data.length s.data

/-- Python `token.isdigit()` for the ASCII tokens at hand. -/
def pyIsDigit (s : String) : Bool :=
  !s.data.isEmpty && s.data.all Char.isDigit

/-- Numeric value of a digit string. -/
def digitsVal (l : List Char) : Nat :=
  l.foldl (fun n c => 10 * n + (c.toNat - 48)) 0

/-- The year scan of `search_pubmed` (src/app.py lines 351-355): first
whitespace-separated token of `pubdate` that is a 4-digit number. -/
def yearFromPubdate (pubdate : String) : Option Int :=
  ((pyWords pubdate).find? (fun t => pyIsDigit t && t.length == 4)).map
    (fun t => (Int.ofNat (digitsVal t.data) : Int))

/-- The per-item body of the ESummary loop of `search_pubmed`
(src/app.py lines 335-368): `res.get(pmid)` may be absent (`continue`);
a PDF URL exists only for a truthy PMCID; items without one contribute
no record (`continue`), others exactly one. -/
def pubmedItemRecords (pmid : String) (item : Option PubmedItem) :
    List Record :=
  match item with
  | none => []
  | some it =>
    let ids := pubmedIds it.articleids
    let pdf_url := if pyTruthy ids.1 then
        some ("https://www.ncbi.nlm.nih.gov/pmc/articles/" ++
          ids.1.getD "" ++ "/pdf")
      else none
    match pdf_url with
    | none => []
    | some u =>
      [{ title := it.title,
         authors := joinNamesPubmed it.authors,
         year := yearFromPubdate it.pubdate,
         venue := some (orStr it.fulljournalname (orStr it.source "PubMed")),
         doi := ids.2,
         url_pdf := some u,
         url_landing := some ("https://pubmed.ncbi.nlm.nih.gov/" ++ pmid ++ "/"),
         source := "PubMed" }]

/-- The claim's notion of a PMCID being present among an item's article
identifiers: some identifier is typed `pmcid` and carries a non-empty
value. -/
def pmcidPresent (it : PubmedItem) : Bool :=
  it.articleids.any (fun aid => aid.idtype == "pmcid" && pyTruthy aid.value)

/-- One link object of an arXiv feed entry (fields may be absent). -/
structure ArxivLink where
  ltype : Option String := none
  ltitle : Option String := none
  href : Option String := none
deriving DecidableEq

/-- One arXiv feed entry, restricted to the fields `search_arxiv` reads.
The publication year stands for the value the guarded
`datetime(*e.published_parsed[:6]).year` try-block produces (`None` when
absent or unparsable). -/
structure ArxivEntry where
  title : Option String := none
  published_year : Option Int := none
  link : Option String := none
  links : List ArxivLink := []
  authors : List (Option String) := []
  arxiv_doi : Option String := none
  summary : Option String := none
deriving DecidableEq

/-- Python `s.replace("\n", " ")`. -/
def pyReplaceNl (s : String) : String :=
  String.mk (s.data.map (fun c => if c == Char.ofNat 10 then ' ' else c))

/-- Python `sep.join(items)` over a generator that may yield `None`:
joining raises `TypeError` as soon as a non-string item appears. -/
def joinOptStrs (sep : String) (items : List (Option String)) :
    Except String String :=
  if items.any (fun a => a.isNone) then
    Except.error "TypeError: sequence item: expected str instance, NoneType found"
  else Except.ok (String.intercalate sep (items.map (fun a => a.getD "")))

/-- The per-entry body of the `search_arxiv` loop (src/app.py lines
239-265).  Author flattening is
`", ".join(a.get("name") for a in e.get("authors", []))`, which raises
when an author object lacks `name`; every other field access defaults. -/
def arxivEntryRecord (e : ArxivEntry) : Except String Record :=
  let title := pyReplaceNl (pyStrip (e.title.getD ""))
  let pdf_url := (e.links.find?
    (fun l => l.ltype == some "application/pdf" || l.ltitle == some "pdf")).bind
    (fun l => l.href)
  match joinOptStrs ", " e.authors with
  | Except.error err => Except.error err
  | Except.ok authors =>
    Except.ok
      { title := some title,
        authors := authors,
        year := e.published_year,
        venue := some "arXiv",
        doi := some (e.arxiv_doi.getD ""),
        url_pdf := pdf_url,
        url_landing := e.link,
        source := "arXiv",
        abstract := some (pyStrip (e.summary.getD "")) }

/-- One OpenAlex authorship's author object (`display_name` may be
absent). -/
structure OAAuthor where
  display_name : Option String := none
deriving DecidableEq

/-- The author flattening of `search_openalex` (src/app.py lines
153-155): `a.get("author", {}).get("display_name", "")` — both accesses
default, so flattening is total. -/
def openalexAuthors (l : List (Option OAAuthor)) : String :=
  String.intercalate ", "
    (l.map (fun a => match a with
      | none => ""
      | some au => au.display_name.getD ""))

/-- The search execution block of src/app.py (lines 498-524) building
`all_rows`: each enabled source client is called in the fixed order
OpenAlex, arXiv, PubMed; the sort-target source receives the full
`max_results`, every other enabled source `per_source`;
a raised client exception propagates (there is no handler). -/
def aggregateE (oa ax pm : Nat → String → Except String (List Record))
    (sources : List String) (which sortValue : String) (max_results : Nat) :
    Except String (List Record) :=
  let per_source := max 10 (max_results / max 1 sources.length)
  Except.bind
    (if sources.contains "OpenAlex" then
      oa (if which ≠ "openalex" then per_source else max_results)
        (if which == "openalex" then sortValue else "relevance_score:desc")
    else Except.ok [])
    (fun oaRows => Except.bind
      (if sources.contains "arXiv" then
        ax (if which ≠ "arxiv" then per_source else max_results)
          (if which == "arxiv" then sortValue else "relevance:desc")
      else Except.ok [])
      (fun axRows => Except.bind
        (if sources.contains "PubMed" then
          pm (if which ≠ "pubmed" then per_source else max_results)
            (if which == "pubmed" then sortValue else "relevance")
        else Except.ok [])
        (fun pmRows => Except.ok (oaRows ++ axRows ++ pmRows))))

/-- Lines 498-526 of src/app.py: build `all_rows`, then
`rows = dedupe_records(all_rows)`; a client exception propagates past the
dedup as well. -/
def runSearchE (oa ax pm : Nat → String → Except String (List Record))
    (sources : List String) (which sortValue : String) (max_results : Nat) :
    Except String (List Record) :=
  (aggregateE oa ax pm sources which sortValue max_results).map dedupe_records

/-- The per-source result cap as the claim words it: the sort-target
source gets the full `max_results`, any other source
`max(10, max_results // num_enabled_sources)`. -/
def quotaFor (which src : String) (max_results n : Nat) : Nat :=
  if which = src then max_results else max 10 (max_results / n)

/-- Failure semantics of the execution block, spelled out: the first
failing enabled source (in the fixed order OpenAlex, arXiv, PubMed)
aborts the whole query with its error, discarding every other source's
rows; only when all enabled sources succeed is the deduplicated
concatenation returned. -/
def runSearchSpecE (oa ax pm : Nat → String → Except String (List Record))
    (sources : List String) (which sortValue : String) (max_results : Nat) :
    Except String (List Record) :=
  let per_source := max 10 (max_results / max 1 sources.length)
  let r1 := if sources.contains "OpenAlex" then
      oa (if which ≠ "openalex" then per_source else max_results)
        (if which == "openalex" then sortValue else "relevance_score:desc")
    else Except.ok []
  let r2 := if sources.contains "arXiv" then
      ax (if which ≠ "arxiv" then per_source else max_results)
        (if which == "arxiv" then sortValue else "relevance:desc")
    else Except.ok []
  let r3 := if sources.contains "PubMed" then
      pm (if which ≠ "pubmed" then per_source else max_results)
        (if which == "pubmed" then sortValue else "relevance")
    else Except.ok []
  match r1 with
  | Except.error e => Except.error e
  | Except.ok a =>
    match r2 with
    | Except.error e => Except.error e
    | Except.ok b =>
      match r3 with
      | Except.error e => Except.error e
      | Except.ok c => Except.ok (dedupe_records (a ++ b ++ c))

/-! ## Lemmas about deduplication -/

/-- Two records that agree on no key except the landing URL. -/
def recLandOnly1 : Record :=
  { doi := some "10.1/alpha", url_pdf := some "https://a.org/1.pdf",
    url_landing := some "https://host/page" }

/-- Second record sharing only the landing URL with `recLandOnly1`. -/
def recLandOnly2 : Record :=
  { doi := some "10.2/beta", url_pdf := some "https://b.org/2.pdf",
    url_landing := some "https://host/page" }

/-- A record all three of whose dedup keys are empty. -/
def recNoKeys : Record :=
  { title := some "untitled" }

theorem dedupeSpec_foldl (rows : List Record) :
    ∀ (acc : List Record) (sd sp sl : List String),
    (rows.foldl dedupeSpecStep (acc, sd, sp, sl)).1 =
      acc ++ dedupeAux sd sp sl rows := by
  induction rows with
  | nil => intro acc sd sp sl; simp [dedupeAux]
  | cons r rs ih =>
    intro acc sd sp sl
    simp only [List.foldl_cons, dedupeSpecStep, dedupeAux]
    by_cases h1 : dedupDoi r ≠ "" ∧ dedupDoi r ∈ sd
    · simp [h1, ih]
    · by_cases h2 : dedupPdf r ≠ "" ∧ dedupPdf r ∈ sp
      · simp [h1, h2, ih]
      · by_cases h3 : dedupLand r ≠ "" ∧ dedupLand r ∈ sl
        · simp [h1, h2, h3, ih]
        · simp [h1, h2, h3, ih]

/-- Claim C1: `dedupe_records` is a single forward scan with
first-seen-wins semantics over three independent key sets, exactly as the
spec words it (`dedupeSpec`); empty keys never match; and a collision on
the landing URL alone suffices for rejection, while records with all keys
empty are always kept. -/
theorem dedupe_records_matches_spec :
    (∀ rows, dedupe_records rows = dedupeSpec rows) ∧
    dedupe_records [recLandOnly1, recLandOnly2] = [recLandOnly1] ∧
    dedupe_records [recNoKeys, recNoKeys] = [recNoKeys, recNoKeys] := by
  refine ⟨fun rows => ?_, by decide, by decide⟩
  rw [dedupe_records, dedupeSpec, dedupeSpec_foldl]
  simp

theorem dedupeAux_idem :
    ∀ (rows : List Record) (sd sp sl : List String),
    dedupeAux sd sp sl (dedupeAux sd sp sl rows) = dedupeAux sd sp sl rows := by
  intro rows
  induction rows with
  | nil => intro sd sp sl; simp [dedupeAux]
  | cons r rs ih =>
    intro sd sp sl
    by_cases h1 : dedupDoi r ≠ "" ∧ dedupDoi r ∈ sd
    · simp only [dedupeAux, if_pos h1]
      exact ih sd sp sl
    · by_cases h2 : dedupPdf r ≠ "" ∧ dedupPdf r ∈ sp
      · simp only [dedupeAux, if_neg h1, if_pos h2]
        exact ih sd sp sl
      · by_cases h3 : dedupLand r ≠ "" ∧ dedupLand r ∈ sl
        · simp only [dedupeAux, if_neg h1, if_neg h2, if_pos h3]
          exact ih sd sp sl
        · simp only [dedupeAux, if_neg h1, if_neg h2, if_neg h3]
          rw [ih]

/-- Claim C8: deduplication is idempotent — a second pass over the output
of `dedupe_records` removes nothing. -/
theorem dedupe_records_idem (rows : List Record) :
    dedupe_records (dedupe_records rows) = dedupe_records rows :=
  dedupeAux_idem rows [] [] []

theorem dedupeAux_sublist :
    ∀ (rows : List Record) (sd sp sl : List String),
    (dedupeAux sd sp sl rows).Sublist rows := by
  intro rows
  induction rows with
  | nil => intro sd sp sl; simp [dedupeAux]
  | cons r rs ih =>
    intro sd sp sl
    by_cases h1 : dedupDoi r ≠ "" ∧ dedupDoi r ∈ sd
    · simp only [dedupeAux, if_pos h1]
      exact (ih sd sp sl).cons r
    · by_cases h2 : dedupPdf r ≠ "" ∧ dedupPdf r ∈ sp
      · simp only [dedupeAux, if_neg h1, if_pos h2]
        exact (ih sd sp sl).cons r
      · by_cases h3 : dedupLand r ≠ "" ∧ dedupLand r ∈ sl
        · simp only [dedupeAux, if_neg h1, if_neg h2, if_pos h3]
          exact (ih sd sp sl).cons r
        · simp only [dedupeAux, if_neg h1, if_neg h2, if_neg h3]
          exact (ih _ _ _).cons₂ r

/-- Claim C10: the output of `dedupe_records` is a subsequence of its
input (kept records are the identical input records in their original
relative order, nothing is synthesized), and the first record of any
input is always kept. -/
theorem dedupe_records_sublist :
    (∀ rows, (dedupe_records rows).Sublist rows) ∧
    (∀ r rs, ∃ tl, dedupe_records (r :: rs) = r :: tl) := by
  refine ⟨fun rows => dedupeAux_sublist rows [] [] [], fun r rs => ?_⟩
  refine ⟨dedupeAux (if dedupDoi r ≠ "" then [dedupDoi r] else [])
    (if dedupPdf r ≠ "" then [dedupPdf r] else [])
    (if dedupLand r ≠ "" then [dedupLand r] else []) rs, ?_⟩
  simp [dedupe_records, dedupeAux]

/-! ## Lemmas about abstract reconstruction -/

theorem set_ite_eq (o : List String) (p : Nat) (t : String) :
    (if p < o.length then o.set p t else o) = o.set p t := by
  by_cases h : p < o.length
  · simp [h]
  · simp [h, List.set_eq_of_length_le (Nat.le_of_not_lt h)]

theorem foldl_max_init (l : List Nat) :
    ∀ (m n : Nat), l.foldl max (max m n) = max m (l.foldl max n) := by
  induction l with
  | nil => intro m n; rfl
  | cons c cs ih =>
    intro m n
    show cs.foldl max (max (max m n) c) = max m (cs.foldl max (max n c))
    rw [Nat.max_assoc, ih]

theorem maxpos_step (ps : List Nat) (m : Nat) :
    (if ps ≠ [] then max m (ps.foldl max 0) else m) = ps.foldl max m := by
  cases ps with
  | nil => simp
  | cons c cs =>
    simp only [ne_eq, reduceCtorEq, not_false_eq_true, if_pos]
    show max m ((c :: cs).foldl max 0) = cs.foldl max (max m c)
    rw [foldl_max_init]
    show max m (cs.foldl max (max 0 c)) = max m (cs.foldl max c)
    rw [Nat.zero_max]

theorem maxpos_eq (idx : List (String × List Nat)) :
    ∀ m : Nat,
    idx.foldl (fun m pr => if pr.2 ≠ [] then max m (pr.2.foldl max 0) else m) m
      = ((idx.map Prod.snd).flatten).foldl max m := by
  induction idx with
  | nil => intro m; rfl
  | cons pr idx ih =>
    intro m
    simp only [List.foldl_cons, List.map_cons, List.flatten_cons,
      List.foldl_append]
    rw [maxpos_step, ih]

theorem place_fold_eq (idx : List (String × List Nat)) (o : List String) :
    idx.foldl (fun o pr => pr.2.foldl
      (fun o p => if p < o.length then o.set p pr.1 else o) o) o =
    idx.foldl (fun o pr => pr.2.foldl (fun o p => o.set p pr.1) o) o := by
  have h : (fun (o : List String) (pr : String × List Nat) => pr.2.foldl
      (fun o p => if p < o.length then o.set p pr.1 else o) o) =
      (fun o pr => pr.2.foldl (fun o p => o.set p pr.1) o) := by
    funext o pr
    congr 1
    funext o p
    exact set_ite_eq o p pr.1
  rw [h]

/-- Claim C2: `abstract_from_openalex` computes exactly the spec's
reconstruction (`abstractSpec`): slots sized to max position + 1, each
token placed at each of its positions, non-empty slots joined by single
spaces; absent input yields the empty string; and on the inverted index
of "the cat the" the output is exactly that text. -/
theorem abstract_from_openalex_spec :
    (∀ idx, abstract_from_openalex idx = abstractSpec idx) ∧
    abstract_from_openalex (some [("the", [0, 2]), ("cat", [1])]) =
      "the cat the" ∧
    abstract_from_openalex none = "" := by
  refine ⟨fun idx => ?_, by decide, rfl⟩
  match idx with
  | none => rfl
  | some l =>
    by_cases hl : l = []
    · simp [abstract_from_openalex, abstractSpec, hl]
    · simp only [abstract_from_openalex, abstractSpec, hl, if_neg]
      rw [maxpos_eq, place_fold_eq]

/-! ## Lemmas about tokenization -/

theorem pyFindallAux_len :
    ∀ (fuel : Nat) (l : List Char) (w : String),
    w ∈ pyFindallAux fuel l → 3 ≤ w.length := by
  intro fuel
  induction fuel with
  | zero => intro l w h; simp [pyFindallAux] at h
  | succ fuel ih =>
    intro l w h
    match l with
    | [] => simp [pyFindallAux] at h
    | c :: rest =>
      simp only [pyFindallAux] at h
      by_cases ha : c.isAlpha
      · rw [if_pos ha] at h
        by_cases hr : 2 ≤ (rest.takeWhile fun d => d.isAlpha || d == '-').length
        · rw [if_pos hr] at h
          rcases List.mem_cons.mp h with hw | h'
          · subst hw
            show 3 ≤ (c :: rest.takeWhile fun d => d.isAlpha || d == '-').length
            simp only [List.length_cons]
            omega
          · exact ih _ w h'
        · rw [if_neg hr] at h
          exact ih _ w h
      · rw [if_neg ha] at h
        exact ih _ w h

/-- Claim C3, counterexample: on input "b--" the regex matches the
3-character run "b--", but stripping boundary hyphens leaves the
1-character output token "b", violating "every token in the output has
length at least 3". -/
theorem normalize_text_minlen_cex :
    normalize_text "b--" = ["b"] ∧ ("b" : String).length < 3 := by
  decide

/-- Claim C3 (amended): every regex match has length at least 3 (a letter
plus at least two letters/hyphens), and `normalize_text` returns exactly
those matches lowercased and stripped of boundary hyphens/apostrophes
with empty results and stopwords discarded — but output tokens may end up
shorter than 3 after stripping.  On "LSTM-based Anomaly-Detection
results." the output is exactly ["lstm-based", "anomaly-detection"]. -/
theorem normalize_text_amended :
    (∀ s : String, ∀ w ∈ pyFindall s.data, 3 ≤ w.length) ∧
    (∀ s : String, normalize_text s =
      (((pyFindall s.data).map lowerStr).map stripHyApos).filter
        (fun w => w ≠ "" && !(STOPWORDS.contains w))) ∧
    normalize_text "LSTM-based Anomaly-Detection results." =
      ["lstm-based", "anomaly-detection"] := by
  exact ⟨fun s w h => pyFindallAux_len _ _ w h, fun s => rfl, by decide⟩

/-- Witness for the amended C3 theorem at a concrete input. -/
theorem normalize_text_amended_witness :
    "LSTM-based" ∈ pyFindall ("LSTM-based Anomaly-Detection results." :
      String).data ∧
    3 ≤ ("LSTM-based" : String).length :=
  ⟨by decide, normalize_text_amended.1 "LSTM-based Anomaly-Detection results."
    "LSTM-based" (by decide)⟩

/-! ## Lemmas about keyword analytics -/

theorem lexLe_total : ∀ a b : List Char, (lexLe a b || lexLe b a) = true := by
  intro a
  induction a with
  | nil => intro b; simp [lexLe]
  | cons x xs ih =>
    intro b
    cases b with
    | nil => simp [lexLe]
    | cons y ys =>
      simp only [lexLe]
      by_cases h1 : x.toNat < y.toNat
      · simp [h1]
      · by_cases h2 : y.toNat < x.toNat
        · simp [h1, h2]
        · simp [h1, h2, ih ys]

theorem lexLe_trans :
    ∀ a b c : List Char,
    lexLe a b = true → lexLe b c = true → lexLe a c = true := by
  intro a
  induction a with
  | nil => intro b c _ _; rfl
  | cons x xs ih =>
    intro b c hab hbc
    cases b with
    | nil => simp [lexLe] at hab
    | cons y ys =>
      cases c with
      | nil => simp [lexLe] at hbc
      | cons z zs =>
        simp only [lexLe] at hab hbc ⊢
        by_cases hxy : x.toNat < y.toNat
        · by_cases hyz : y.toNat < z.toNat
          · simp [Nat.lt_trans hxy hyz]
          · by_cases hzy : z.toNat < y.toNat
            · simp [hyz, hzy] at hbc
            · have hxz : x.toNat < z.toNat := by omega
              simp [hxz]
        · by_cases hyx : y.toNat < x.toNat
          · simp [hxy, hyx] at hab
          · simp only [hxy, hyx, if_false] at hab
            by_cases hyz : y.toNat < z.toNat
            · have hxz : x.toNat < z.toNat := by omega
              simp [hxz]
            · by_cases hzy : z.toNat < y.toNat
              · simp [hyz, hzy] at hbc
              · simp only [hyz, hzy, if_false] at hbc
                have hxz : ¬ x.toNat < z.toNat := by omega
                have hzx : ¬ z.toNat < x.toNat := by omega
                simp [hxz, hzx, ih ys zs hab hbc]

theorem strLe_trans (a b c : String) :
    strLe a b = true → strLe b c = true → strLe a c = true :=
  lexLe_trans a.data b.data c.data

theorem strLe_total (a b : String) : (strLe a b || strLe b a) = true :=
  lexLe_total a.data b.data

/-- Claim C9: `extract_keywords` returns the token-frequency map of
titles (plus resolved abstracts when `include_abstracts`), and an
uncommon-terms list that is lexicographically sorted and contains exactly
the words of frequency 1 and length at least 6; on a record whose token
stream is ["alpha", "alpha", "betabeta"] the uncommon list is exactly
["betabeta"]. -/
theorem extract_keywords_spec :
    (∀ rows b w, (extract_keywords rows b).1 w = (tokensOf rows b).count w) ∧
    (∀ rows b, List.Sorted (fun u v => strLe u v = true)
      (extract_keywords rows b).2) ∧
    (∀ rows b w, w ∈ (extract_keywords rows b).2 ↔
      ((tokensOf rows b).count w = 1 ∧ 6 ≤ w.length)) ∧
    (extract_keywords [{ title := some "alpha alpha betabeta" }] true).2 =
      ["betabeta"] := by
  refine ⟨fun rows b w => rfl, fun rows b => ?_, fun rows b w => ?_, ?_⟩
  · exact List.sorted_mergeSort strLe_trans strLe_total _
  · simp only [extract_keywords]
    constructor
    · intro hm
      have hm2 := (List.mergeSort_perm _ strLe).mem_iff.mp hm
      rcases List.mem_filter.mp hm2 with ⟨_, hp⟩
      simpa using hp
    · rintro ⟨hc, hl⟩
      apply (List.mergeSort_perm _ strLe).mem_iff.mpr
      apply List.mem_filter.mpr
      refine ⟨List.mem_dedup.mpr (List.count_pos_iff.mp (by omega)), by
        simp [hc, hl]⟩
  · have h : ((tokensOf [{ title := some "alpha alpha betabeta" }]
        true).dedup.filter
        (fun w => (tokensOf [{ title := some "alpha alpha betabeta" }]
          true).count w == 1 && decide (6 ≤ w.length))) = ["betabeta"] := by
      decide
    show ((tokensOf [{ title := some "alpha alpha betabeta" }]
        true).dedup.filter
        (fun w => (tokensOf [{ title := some "alpha alpha betabeta" }]
          true).count w == 1 && decide (6 ≤ w.length))).mergeSort strLe =
      ["betabeta"]
    rw [h]
    exact List.mergeSort_singleton _

/-- Witness for the C9 theorem at a concrete input. -/
theorem extract_keywords_spec_witness :
    "betabeta" ∈
      (extract_keywords [{ title := some "alpha alpha betabeta" }] true).2 :=
  (extract_keywords_spec.2.2.1 [{ title := some "alpha alpha betabeta" }]
    true "betabeta").mpr ⟨by decide, by decide⟩

/-! ## Lemmas about the PubMed client -/

/-- An item whose identifiers carry a PMCID (first entry) but whose last
`pmcid`-typed entry has an empty value, so the scan ends with an unusable
PMCID. -/
def dupPmcidItem : PubmedItem :=
  { articleids := [{ idtype := "pmcid", value := some "PMC1" },
      { idtype := "pmcid", value := some "" }] }

/-- An item with a single usable PMCID. -/
def goodPmcidItem : PubmedItem :=
  { articleids := [{ idtype := "pmcid", value := some "PMC42" }] }

/-- Claim C6, counterexample: a PMCID is present among this item's
article identifiers, yet the item contributes zero records, because the
identifier scan takes the last `pmcid`-typed entry and its value is
empty. -/
theorem pubmed_pmcid_cex :
    pmcidPresent dupPmcidItem = true ∧
    pubmedItemRecords "1" (some dupPmcidItem) = [] := by
  exact ⟨rfl, rfl⟩

/-- Claim C6 (amended): a summary item materializes a Record iff the
PMCID left by the identifier scan (last `pmcid`-typed entry wins) is
present and non-empty; every materialized record has source "PubMed" and
a non-empty `url_pdf`; a missing item contributes nothing. -/
theorem pubmed_records_characterization :
    (∀ pmid it, pubmedItemRecords pmid (some it) ≠ [] ↔
      pyTruthy (pubmedIds it.articleids).1 = true) ∧
    (∀ pmid item r, r ∈ pubmedItemRecords pmid item →
      r.source = "PubMed" ∧ ∃ u, r.url_pdf = some u ∧ u ≠ "") ∧
    (∀ pmid, pubmedItemRecords pmid none = []) := by
  refine ⟨fun pmid it => ?_, fun pmid item r hr => ?_, fun pmid => rfl⟩
  · simp only [pubmedItemRecords]
    by_cases h : pyTruthy (pubmedIds it.articleids).1 = true
    · simp [h]
    · simp [h]
  · cases item with
    | none => simp [pubmedItemRecords] at hr
    | some it =>
      simp only [pubmedItemRecords] at hr
      by_cases h : pyTruthy (pubmedIds it.articleids).1 = true
      · simp only [h, if_pos] at hr
        rw [List.mem_singleton.mp hr]
        refine ⟨rfl, "https://www.ncbi.nlm.nih.gov/pmc/articles/" ++
          (pubmedIds it.articleids).1.getD "" ++ "/pdf", rfl, fun hu => ?_⟩
        have hlen := congrArg String.length hu
        rw [String.length_append, String.length_append] at hlen
        have h4 : ("/pdf" : String).length = 4 := by decide
        have h0 : ("" : String).length = 0 := rfl
        omega
      · simp [h] at hr

/-- Witness for the amended C6 theorem at concrete inputs. -/
theorem pubmed_records_characterization_witness :
    pubmedItemRecords "7" (some goodPmcidItem) ≠ [] ∧
    pubmedItemRecords "1" (some dupPmcidItem) = [] :=
  ⟨(pubmed_records_characterization.1 "7" goodPmcidItem).mpr (by decide),
    by decide⟩

/-! ## Lemmas about the arXiv and OpenAlex clients -/

/-- An arXiv feed entry whose single author object lacks a `name` key. -/
def noNameEntry : ArxivEntry :=
  { title := some "Some Paper", authors := [none] }

/-- Claim C7: the arXiv payload-to-record normalization is NOT total —
`", ".join(a.get("name") for a in e.get("authors", []))` raises
`TypeError` when an author entry lacks its name — while the OpenAlex
author flattening (both dict accesses defaulted) and the PubMed author
flattening (truthy-filtered before joining) tolerate missing names. -/
theorem arxiv_author_flatten_raises :
    arxivEntryRecord noNameEntry = Except.error
      "TypeError: sequence item: expected str instance, NoneType found" ∧
    openalexAuthors [none, some { display_name := none },
      some { display_name := some "Ada" }] = ", , Ada" ∧
    joinNamesPubmed [none, some "", some "Ada"] = "Ada" := by
  exact ⟨rfl, rfl, rfl⟩

/-! ## Lemmas about the search execution block -/

/-- Claim C4: with all clients succeeding, the execution block calls each
enabled source in the fixed order OpenAlex, arXiv, PubMed and
concatenates their rows in that order; the sort-target source is called
with the full `max_results` cap and every other enabled source with
`max(10, max_results // num_enabled_sources)` (the `quotaFor` split). -/
theorem aggregate_quota_split
    (f g h : Nat → String → List Record) (sources : List String)
    (which sortValue : String) (max_results : Nat)
    (hs : 0 < sources.length) :
    aggregateE (fun c s => Except.ok (f c s)) (fun c s => Except.ok (g c s))
      (fun c s => Except.ok (h c s)) sources which sortValue max_results =
    Except.ok
      ((if sources.contains "OpenAlex" then
          f (quotaFor which "openalex" max_results sources.length)
            (if which == "openalex" then sortValue
              else "relevance_score:desc")
        else []) ++
        (if sources.contains "arXiv" then
          g (quotaFor which "arxiv" max_results sources.length)
            (if which == "arxiv" then sortValue else "relevance:desc")
        else []) ++
        (if sources.contains "PubMed" then
          h (quotaFor which "pubmed" max_results sources.length)
            (if which == "pubmed" then sortValue else "relevance")
        else [])) := by
  have hmax : max 1 sources.length = sources.length := by omega
  simp only [aggregateE, quotaFor, hmax, ne_eq, ite_not]
  by_cases h1 : "OpenAlex" ∈ sources <;>
    by_cases h2 : "arXiv" ∈ sources <;>
    by_cases h3 : "PubMed" ∈ sources <;>
      simp [h1, h2, h3, Except.bind]

/-- A stub OpenAlex client recording its cap and sort arguments. -/
def stubOA : Nat → String → List Record :=
  fun c s =>
    [{ title := some "oa", year := some (Int.ofNat c),
       venue := some s }]

/-- A stub arXiv client recording its cap and sort arguments. -/
def stubAX : Nat → String → List Record :=
  fun c s =>
    [{ title := some "ax", year := some (Int.ofNat c),
       venue := some s }]

/-- A stub PubMed client recording its cap and sort arguments. -/
def stubPM : Nat → String → List Record :=
  fun c s =>
    [{ title := some "pm", year := some (Int.ofNat c),
       venue := some s }]

/-- Witness for the C4 theorem: all three sources enabled, arXiv the sort
target. -/
theorem aggregate_quota_split_witness :
    0 < (["OpenAlex", "arXiv", "PubMed"] : List String).length ∧
    aggregateE (fun c s => Except.ok (stubOA c s))
      (fun c s => Except.ok (stubAX c s))
      (fun c s => Except.ok (stubPM c s))
      ["OpenAlex", "arXiv", "PubMed"] "arxiv" "submittedDate:desc" 100 =
    Except.ok
      ((if (["OpenAlex", "arXiv", "PubMed"] : List String).contains "OpenAlex"
          then stubOA (quotaFor "arxiv" "openalex" 100 3)
            (if ("arxiv" : String) == "openalex" then "submittedDate:desc"
              else "relevance_score:desc")
        else []) ++
        (if (["OpenAlex", "arXiv", "PubMed"] : List String).contains "arXiv"
          then stubAX (quotaFor "arxiv" "arxiv" 100 3)
            (if ("arxiv" : String) == "arxiv" then "submittedDate:desc"
              else "relevance:desc")
        else []) ++
        (if (["OpenAlex", "arXiv", "PubMed"] : List String).contains "PubMed"
          then stubPM (quotaFor "arxiv" "pubmed" 100 3)
            (if ("arxiv" : String) == "pubmed" then "submittedDate:desc"
              else "relevance")
        else [])) :=
  ⟨by decide, aggregate_quota_split stubOA stubAX stubPM
    ["OpenAlex", "arXiv", "PubMed"] "arxiv" "submittedDate:desc" 100
    (by decide)⟩

/-- A client that always succeeds with one OpenAlex row. -/
def oaOkClient : Nat → String → Except String (List Record) :=
  fun _ _ => Except.ok
    [{ title := some "openalex row", doi := some "10.1/x",
       source := "OpenAlex" }]

/-- A client whose paginated retrieval raised on a non-success status. -/
def axFailClient : Nat → String → Except String (List Record) :=
  fun _ _ => Except.error "HTTPError: 500 Server Error"

/-- A client that always succeeds with one PubMed row. -/
def pmOkClient : Nat → String → Except String (List Record) :=
  fun _ _ => Except.ok
    [{ title := some "pubmed row", doi := some "10.2/y",
       source := "PubMed" }]

/-- Claim C5, counterexample: with all three sources enabled and only the
arXiv client failing, the execution block returns that failure — no
result list at all — instead of the deduplicated rows of the other two
sources. -/
theorem run_search_skip_cex :
    runSearchE oaOkClient axFailClient pmOkClient
      ["OpenAlex", "arXiv", "PubMed"] "openalex" "relevance_score:desc"
      100 = Except.error "HTTPError: 500 Server Error" ∧
    (runSearchE oaOkClient axFailClient pmOkClient
      ["OpenAlex", "arXiv", "PubMed"] "openalex" "relevance_score:desc"
      100).isOk = false := by
  exact ⟨rfl, rfl⟩

/-- Claim C5 (amended): a hard failure of any enabled source client
aborts the entire query — the block returns the first failing source's
error (in the fixed order OpenAlex, arXiv, PubMed) and discards every
other source's rows; only when all enabled sources succeed is the
deduplicated concatenation returned (`runSearchSpecE` spells out this
first-error semantics). -/
theorem run_search_aborts
    (oa ax pm : Nat → String → Except String (List Record))
    (sources : List String) (which sortValue : String) (max_results : Nat) :
    runSearchE oa ax pm sources which sortValue max_results =
      runSearchSpecE oa ax pm sources which sortValue max_results := by
  simp only [runSearchE, aggregateE, runSearchSpecE]
  cases hoa : (if sources.contains "OpenAlex" then
      oa (if which ≠ "openalex"
          then max 10 (max_results / max 1 sources.length) else max_results)
        (if which == "openalex" then sortValue else "relevance_score:desc")
    else Except.ok []) with
  | error e => rfl
  | ok a =>
    cases hax : (if sources.contains "arXiv" then
        ax (if which ≠ "arxiv"
            then max 10 (max_results / max 1 sources.length) else max_results)
          (if which == "arxiv" then sortValue else "relevance:desc")
      else Except.ok []) with
    | error e => rfl
    | ok b =>
      cases hpm : (if sources.contains "PubMed" then
          pm (if which ≠ "pubmed"
              then max 10 (max_results / max 1 sources.length)
              else max_results)
            (if which == "pubmed" then sortValue else "relevance")
        else Except.ok []) with
      | error e => rfl
      | ok c => rfl

end OAPF
